import Mathlib

/-!
# A client for the Rigol DP832 bench power supply

A shallow embedding of `main.go`: the command/response exchange over the
socket (`command`), the identification handshake (`IDN`, `Connect`) and the
per-channel measurement query (`Measure`), followed by the properties proved
about them.

Conventions of the embedding.

* A Go `string` is a sequence of bytes.  It is modelled as a list whose
  elements stand for the bytes; `Char` is the element type so that ASCII
  texts can be written as literals.  Nothing below looks at an element other
  than through equality and its numeric value.
* A Go function returning `(v, err)` is modelled as a `Result`: either the
  pair it returns (with `err = none` for `nil`) or the run-time panic that
  ends the call.
* The socket is explicit state: the arguments of the `Write` calls made so
  far, and the behaviour of the peer in the exchanges still to come.
* `strconv.ParseFloat` is a parameter of `Measure`: every theorem about
  `Measure` holds for whatever conversion the library implements.
-/

set_option autoImplicit false
set_option maxRecDepth 8000

namespace Rigol

/-! ## Strings, errors, results -/

/-- A Go string: its bytes in order. -/
abbrev GoString := List Char

/-- The reason a `strconv` conversion failed (`strconv.ErrSyntax`, `strconv.ErrRange`). -/
inductive NumErr where
  | badSyntax
  | outOfRange
  deriving DecidableEq, Repr

/-- The record `strconv.NumError`: failing function, input text, reason. -/
structure NumError where
  Func : GoString
  Num : GoString
  Err : NumErr
  deriving DecidableEq, Repr

/-- The Go `error` values that occur in the program. -/
inductive Error where
  /-- an error of the network stack or of the buffered reader (dial, write, read) -/
  | net (msg : GoString)
  /-- a `*strconv.NumError` -/
  | num (e : NumError)
  /-- the value built by `fmt.Errorf`, with the text it reports -/
  | errorString (msg : GoString)
  deriving DecidableEq, Repr

/-- The run-time panics that can end a call. -/
inductive Panic where
  /-- `index out of range [index] with length len` -/
  | indexOutOfRange (index len : Nat)
  /-- `slice bounds out of range [:bound]` -/
  | sliceBounds (bound : Int)
  /-- nil dereference: a method called on a nil interface value -/
  | nilDereference
  /-- `panic(msg)` -/
  | explicit (msg : GoString)
  /-- `panic(err)` with an error value -/
  | ofError (err : Error)
  deriving DecidableEq, Repr

/-- The way a call of a function with results `(v, err)` ends. -/
inductive Result (α : Type) where
  | returned (val : α) (err : Option Error)
  | panicked (p : Panic)
  deriving DecidableEq, Repr

deriving instance DecidableEq for Except

/-! ## Library functions used by the program -/

namespace strings

/-- The function `strings.Split(s, sep)` for a one-byte separator: the
substrings between the occurrences of `sep`, one more than there are
occurrences. -/
def Split (s : GoString) (sep : Char) : List GoString :=
  match s with
  | [] => [[]]
  | c :: cs =>
    if c = sep then [] :: Split cs sep
    else
      match Split cs sep with
      | [] => [[c]]
      | f :: fs => (c :: f) :: fs

end strings

namespace strconv

/-- The function `strconv.ParseFloat(s, 64)` over a conversion `conv` of the
library: `conv s` is the float64 that the text denotes, or the reason it
denotes none.  As documented, a failure is reported as a `*NumError` with
`Func = "ParseFloat"` and `Num = s`. -/
def ParseFloat {F : Type} (conv : GoString → Except NumErr F) (s : GoString) : Except Error F :=
  match conv s with
  | .ok f => .ok f
  | .error reason => .error (.num { Func := "ParseFloat".toList, Num := s, Err := reason })

/-- A decimal number `(-1)^neg * digits * 10^(-scale)`. -/
structure Decimal where
  neg : Bool
  digits : Nat
  scale : Nat
  deriving DecidableEq, Repr

instance : Zero Decimal := ⟨{ neg := false, digits := 0, scale := 0 }⟩

/-- Whether a byte is one of `0` .. `9`. -/
def isDigit (c : Char) : Bool := decide (48 ≤ c.toNat ∧ c.toNat ≤ 57)

/-- Reads the digits and the optional point of a decimal text:
`readDigits s digits scale sawDot sawDigit`. -/
def readDigits : GoString → Nat → Nat → Bool → Bool → Option (Nat × Nat)
  | [], digits, scale, _, sawDigit => if sawDigit then some (digits, scale) else none
  | c :: cs, digits, scale, sawDot, sawDigit =>
    if isDigit c then
      readDigits cs (digits * 10 + (c.toNat - 48)) (if sawDot then scale + 1 else scale) sawDot true
    else if c = '.' ∧ sawDot = false then readDigits cs digits scale true sawDigit
    else none

/-- The least magnitude that rounds to an infinite float64, `2^1024 - 2^970`
(half a unit in the last place above the largest float64), in decimal. -/
def overflowBound : Nat :=
  179769313486231580793728971405303415079934132710037826936173778980444968292764750946649017977587207096330286416692887910946555547851940402630657488671505820681908902000708383676273854845817711531764475730270069855571366959622842914819860834936475292719074168444365510704342711559699508093042880177904174497792

/-- A conversion for plain decimal texts, `[+-]ddd[.ddd]` with at least one
digit, kept as the decimal read (the float64 is its correct rounding, a
function of it); a magnitude that rounds to infinity is `outOfRange`.
Every other text is reported as `badSyntax`.  It agrees with the library on
the empty text, on the texts made of sign, digits and point only, and on
the texts whose first byte cannot start a number (a byte other than a sign,
a digit, a point and the letters `i`, `I`, `n`, `N`).  The other texts the
library accepts (exponents, hexadecimal floats, underscores, infinities and
NaN) are outside it; it is used for examples only, on texts it agrees
on. -/
def decimal (s : GoString) : Except NumErr Decimal :=
  let (neg, body) :=
    match s with
    | '+' :: t => (false, t)
    | '-' :: t => (true, t)
    | _ => (false, s)
  match readDigits body 0 0 false false with
  | none => .error .badSyntax
  | some (digits, scale) =>
    if overflowBound * 10 ^ scale ≤ digits then .error .outOfRange
    else .ok { neg := neg, digits := digits, scale := scale }

end strconv

namespace bufio

/-- The bytes of `stream` up to and including the first `delim`, if there is one. -/
def upTo (delim : Char) : GoString → Option GoString
  | [] => none
  | c :: cs => if c = delim then some [c] else (upTo delim cs).map (c :: ·)

/-- The call `bufio.NewReader(conn).ReadString(delim)` when the connection
delivers `stream` and then fails with `endErr`: the data up to and including
the first delimiter, or else the data read before the failure together with
the failure. -/
def ReadString (stream : GoString) (endErr : Error) (delim : Char) : GoString × Option Error :=
  match upTo delim stream with
  | some line => (line, none)
  | none => (stream, some endErr)

end bufio

namespace fmt

/-- Whether a byte is one of `0` .. `9`. -/
def isDigit (c : Char) : Bool := decide (48 ≤ c.toNat ∧ c.toNat ≤ 57)

/-- Whether a byte is one of the flags `#0+- `. -/
def isFlag (c : Char) : Bool := c = '#' || c = '0' || c = '+' || c = '-' || c = ' '

/-- The guard `tooLarge` of the number reader. -/
def tooLarge (x : Nat) : Bool := decide (1000000 < x)

/-- The loop of `parsenum` over the bytes up to its end index: the number,
whether a digit was read, and the bytes left (none after an overflow, which
returns the end index). -/
def parsenumLoop : GoString → Nat → Bool → Nat × Bool × GoString
  | [], num, isnum => (num, isnum, [])
  | c :: cs, num, isnum =>
    if isDigit c then
      if tooLarge num then (0, false, []) else parsenumLoop cs (num * 10 + (c.toNat - 48)) true
    else (num, isnum, c :: cs)

/-- The function `parsenum(s, start, end)` on the bytes `s[start:end]`. -/
def parsenum (s : GoString) : Nat × Bool × GoString := parsenumLoop s 0 false

/-- The function `parseArgNumber` on a format that starts with `[`: the
width of the bracketed index and whether it is well formed. -/
def parseArgNumber (format : GoString) : Nat × Bool :=
  if format.length < 3 then (1, false)
  else
    let body := format.drop 1
    let k := body.indexOf ']'
    if k < body.length then
      match parsenum (body.take k) with
      | (_, ok, rest) => (k + 2, ok && rest.isEmpty)
    else (1, false)

/-- The method `argNumber` when the call has no operands: no index is ever
in range, so a bracket always clears `goodArgNum`.  Returns `goodArgNum`,
the format left and `found`. -/
def argNumber (good : Bool) (format : GoString) : Bool × GoString × Bool :=
  match format with
  | '[' :: _ =>
    match parseArgNumber format with
    | (wid, ok) => (false, format.drop wid, ok)
  | _ => (good, format, false)

/-- The bytes of the UTF-8 replacement character U+FFFD. -/
def runeError : GoString := [Char.ofNat 0xEF, Char.ofNat 0xBF, Char.ofNat 0xBD]

/-- Whether a byte lies in `lo .. hi`. -/
def within (lo hi : Nat) (c : Char) : Bool := decide (lo ≤ c.toNat ∧ c.toNat ≤ hi)

/-- The size of the well-formed UTF-8 sequence at the head of a format, or
0 if there is none (`utf8.DecodeRuneInString`: the first byte fixes the size
and the range of the second byte; the later bytes lie in `0x80 .. 0xBF`). -/
def runeSize (format : GoString) : Nat :=
  match format with
  | [] => 0
  | c0 :: t =>
    if c0.toNat < 0x80 then 1
    else
      let size : Nat :=
        if within 0xC2 0xDF c0 then 2 else if within 0xE0 0xEF c0 then 3
        else if within 0xF0 0xF4 c0 then 4 else 0
      let lo : Nat := if c0.toNat = 0xE0 then 0xA0 else if c0.toNat = 0xF0 then 0x90 else 0x80
      let hi : Nat := if c0.toNat = 0xED then 0x9F else if c0.toNat = 0xF4 then 0x8F else 0xBF
      if size = 0 ∨ t.length + 1 < size then 0
      else if !(t.take 1).all (within lo hi) then 0
      else if size = 2 then 2
      else if !((t.drop 1).take 1).all (within 0x80 0xBF) then 0
      else if size = 3 then 3
      else if !((t.drop 2).take 1).all (within 0x80 0xBF) then 0
      else 4

/-- The verb rune at the head of a format as `writeRune` writes it back, and
the format after it: a well-formed UTF-8 sequence is consumed and written
unchanged, any other first byte is consumed alone and written as U+FFFD. -/
def verbRune (format : GoString) : GoString × GoString :=
  if runeSize format = 0 then (runeError, format.drop 1)
  else (format.take (runeSize format), format.drop (runeSize format))

/-- The width of a verb: a `*` has no operand and is written as
`%!(BADWIDTH)`; a number after an index clears `goodArgNum`.  Takes and
returns `goodArgNum`, the format left and `afterIndex`. -/
def verbWidth (good : Bool) (s : GoString) (afterIndex : Bool) : GoString × Bool × GoString × Bool :=
  match s with
  | '*' :: t => ("%!(BADWIDTH)".toList, good, t, false)
  | _ =>
    match parsenum s with
    | (_, widPresent, t) => ([], good && !(afterIndex && widPresent), t, afterIndex)

/-- The precision of a verb, after a `.`: a `*` has no operand and is written
as `%!(BADPREC)`. -/
def verbPrecision (good : Bool) (s : GoString) (afterIndex : Bool) :
    GoString × Bool × GoString × Bool :=
  match s with
  | '.' :: t =>
    match argNumber (good && !afterIndex) t with
    | (good, t, afterIndex) =>
      match t with
      | '*' :: u => ("%!(BADPREC)".toList, good, u, false)
      | _ =>
        match parsenum t with
        | (_, _, u) => ([], good, u, afterIndex)
  | _ => ([], good, s, afterIndex)

/-- The verb itself: `%%` writes `%`; any other verb has no operand and is
written as `%!v(MISSING)`, or as `%!v(BADINDEX)` when `goodArgNum` is
cleared; a format that ends before the verb is written as `%!(NOVERB)`. -/
def verbLetter (good : Bool) (s : GoString) : GoString × GoString :=
  match s with
  | [] => ("%!(NOVERB)".toList, [])
  | _ =>
    match verbRune s with
    | (v, rest) =>
      if v = ['%'] then (['%'], rest)
      else if !good then ("%!".toList ++ v ++ "(BADINDEX)".toList, rest)
      else ("%!".toList ++ v ++ "(MISSING)".toList, rest)

/-- One verb of `doPrintf` in a call without operands: `format` is what
follows the `%`; the result is what is written and the format left.  Flags,
index, width, precision, index and verb are read in turn. -/
def verb (format : GoString) : GoString × GoString :=
  match argNumber true (format.dropWhile isFlag) with
  | (good, s, afterIndex) =>
    match verbWidth good s afterIndex with
    | (out1, good, s, afterIndex) =>
      match verbPrecision good s afterIndex with
      | (out2, good, s, afterIndex) =>
        match (if afterIndex then (good, s, afterIndex) else argNumber good s) with
        | (good, s, _) =>
          match verbLetter good s with
          | (out3, rest) => (out1 ++ out2 ++ out3, rest)

/-- The loop of `doPrintf` in a call without operands: text up to a `%` is
copied, then one verb is processed.  Every round consumes at least the `%`,
so `format.length + 1` rounds are always enough. -/
def doPrintf : Nat → GoString → GoString
  | 0, _ => []
  | fuel + 1, format =>
    let text := format.takeWhile (· ≠ '%')
    match format.dropWhile (· ≠ '%') with
    | [] => text
    | _ :: afterPercent =>
      match verb afterPercent with
      | (out, rest) => text ++ out ++ doPrintf fuel rest

/-- The bytes that `fmt.Fprintf(w, format)`, called without operands, hands
to `w.Write`. -/
def Sprintf0 (format : GoString) : GoString := doPrintf (format.length + 1) format

end fmt

/-! ## The connection -/

/-- What the peer does during one command/response exchange. -/
structure Exchange where
  /-- the error of the `Write` call, if it fails -/
  writeErr : Option Error
  /-- the bytes delivered to the reader of this exchange before the stream fails -/
  incoming : GoString
  /-- the failure that ends the stream (end of file, reset) -/
  readErr : Error
  deriving DecidableEq, Repr

/-- A peer that has closed the connection: nothing arrives. -/
def Exchange.closed : Exchange :=
  { writeErr := none, incoming := [], readErr := .net "EOF".toList }

/-- The socket `net.Conn`: the arguments of the `Write` calls made on it so
far, oldest first, and the behaviour of the peer in the coming exchanges (a
closed peer once the list is used up). -/
structure Conn where
  wrote : List GoString
  peer : List Exchange
  deriving DecidableEq, Repr

/-! ## The program -/

/-- The struct `DP832`; `conn` is `none` while the interface value is nil. -/
structure DP832 where
  conn : Option Conn
  Addr : GoString
  deriving DecidableEq, Repr

/-- The type `Channel`, an `int`. -/
abbrev Channel := Int

def ChCur : Channel := 0
def Ch1 : Channel := 1
def Ch2 : Channel := 2
def Ch3 : Channel := 3

/-- The struct `Measurement`, over the type `F` of float64 values. -/
structure Measurement (F : Type) where
  Channel : Channel
  Voltage : F
  Current : F
  Power : F
  deriving DecidableEq, Repr

/-- The struct `Instrument`. -/
structure Instrument where
  Manufacturer : GoString
  Model : GoString
  Serial : GoString
  Version : GoString
  deriving DecidableEq, Repr

/-- The zero value of `Measurement` (`var m Measurement`). -/
def Measurement.zero {F : Type} [Zero F] : Measurement F :=
  { Channel := 0, Voltage := 0, Current := 0, Power := 0 }

/-- The zero value of `Instrument` (`var i Instrument`). -/
def Instrument.zero : Instrument :=
  { Manufacturer := [], Model := [], Serial := [], Version := [] }

/-- The map `chStrMap`, as its key/value pairs. -/
def chStrMap : List (Channel × GoString) :=
  [(ChCur, []), (Ch1, "CH1".toList), (Ch2, "CH2".toList), (Ch3, "CH3".toList)]

/-- The map index expression `m[k]`: the value stored under `k`, or the zero
value of the element type when `k` is not a key. -/
def mapIndex (m : List (Channel × GoString)) (k : Channel) : GoString :=
  (m.lookup k).getD []

/-- The method `Channel.String`. -/
def Channel.String (c : Channel) : Except Panic GoString :=
  if c = ChCur then .ok "ChC".toList
  else if c = Ch1 then .ok "Ch1".toList
  else if c = Ch2 then .ok "Ch2".toList
  else if c = Ch3 then .ok "Ch3".toList
  else .error (.explicit "Invalid value".toList)

/-- The method `(*DP832).command`.  The format handed to `Fprintf` is
`Sprintf("%s\n", command)`, the command followed by a line feed; the call
has no operands.  The reply is read up to the first line feed and returned
without its last two bytes. -/
def DP832.command (d : DP832) (command : GoString) : Result GoString × DP832 :=
  match d.conn with
  | none => (.panicked .nilDereference, d)
  | some conn =>
    let x := conn.peer.headD Exchange.closed
    let conn : Conn :=
      { wrote := conn.wrote ++ [fmt.Sprintf0 (command ++ ['\n'])], peer := conn.peer.tail }
    let d : DP832 := { d with conn := some conn }
    match x.writeErr with
    | some err => (.returned [] (some err), d)
    | none =>
      match bufio.ReadString x.incoming x.readErr '\n' with
      | (_, some err) => (.returned [] (some err), d)
      | (result, none) =>
        if result.length < 2 then (.panicked (.sliceBounds ((result.length : Int) - 2)), d)
        else (.returned (result.take (result.length - 2)) none, d)

/-- The method `(*DP832).IDN`. -/
def DP832.IDN (d : DP832) : Result Instrument × DP832 :=
  let i := Instrument.zero
  match d.command "*IDN?".toList with
  | (.panicked p, d) => (.panicked p, d)
  | (.returned _ (some err), d) => (.returned i (some err), d)
  | (.returned s none, d) =>
    let a := strings.Split s ','
    match a.get? 0 with
    | none => (.panicked (.indexOutOfRange 0 a.length), d)
    | some a0 =>
    match a.get? 1 with
    | none => (.panicked (.indexOutOfRange 1 a.length), d)
    | some a1 =>
    match a.get? 2 with
    | none => (.panicked (.indexOutOfRange 2 a.length), d)
    | some a2 =>
    match a.get? 3 with
    | none => (.panicked (.indexOutOfRange 3 a.length), d)
    | some a3 =>
      (.returned { Manufacturer := a0, Model := a1, Serial := a2, Version := a3 } none, d)

/-- The text built by `fmt.Errorf("Epected model DP832, found %s", model)`. -/
def modelMismatch (model : GoString) : Error :=
  .errorString ("Epected model DP832, found ".toList ++ model)

/-- The method `(*DP832).Connect`; `Dial network address` is `net.Dial`. -/
def DP832.Connect (Dial : GoString → GoString → Except Error Conn) (d : DP832) :
    Result Unit × DP832 :=
  match Dial "tcp".toList d.Addr with
  | .error err => (.returned () (some err), d)
  | .ok conn =>
    let d : DP832 := { d with conn := some conn }
    match d.IDN with
    | (.panicked p, d) => (.panicked p, d)
    | (.returned _ (some err), d) => (.returned () (some err), d)
    | (.returned i none, d) =>
      if i.Model ≠ "DP832".toList then (.returned () (some (modelMismatch i.Model)), d)
      else (.returned () none, d)

/-- The command text of `Measure`: `fmt.Sprintf("MEAS:ALL? %s", chStrMap[ch])`. -/
def DP832.Measure.cmd (ch : Channel) : GoString :=
  "MEAS:ALL? ".toList ++ mapIndex chStrMap ch

/-- The method `(*DP832).Measure`, over the conversion `conv` of `strconv`. -/
def DP832.Measure {F : Type} [Zero F] (conv : GoString → Except NumErr F) (d : DP832)
    (ch : Channel) : Result (Measurement F) × DP832 :=
  let m : Measurement F := Measurement.zero
  let cmd := DP832.Measure.cmd ch
  match d.command cmd with
  | (.panicked p, d) => (.panicked p, d)
  | (.returned _ (some err), d) => (.returned m (some err), d)
  | (.returned s none, d) =>
    let a := strings.Split s ','
    match a.get? 0 with
    | none => (.panicked (.indexOutOfRange 0 a.length), d)
    | some a0 =>
    match strconv.ParseFloat conv a0 with
    | .error err => (.returned m (some err), d)
    | .ok f =>
    let m := { m with Current := f }
    match a.get? 1 with
    | none => (.panicked (.indexOutOfRange 1 a.length), d)
    | some a1 =>
    match strconv.ParseFloat conv a1 with
    | .error err => (.returned m (some err), d)
    | .ok f =>
    let m := { m with Voltage := f }
    match a.get? 2 with
    | none => (.panicked (.indexOutOfRange 2 a.length), d)
    | some a2 =>
    match strconv.ParseFloat conv a2 with
    | .error err => (.returned m (some err), d)
    | .ok f =>
    let m := { m with Power := f }
    let m := { m with Channel := ch }
    (.returned m none, d)

/-- The state of the poll loop of `main`: the client, the measurements handed
to `log.Printf` so far, oldest first, and the channels `Measure` has been
called with so far, oldest first. -/
structure Poll (F : Type) where
  dp : DP832
  printed : List (Measurement F)
  queried : List Channel
  deriving DecidableEq, Repr

/-- The body of the poll loop over the channels that are left:
`for _, CH := range channels`, with `panic(err)` when `Measure` returns an
error and `log.Printf("%v", m)` otherwise.  The result is the panic that
ends the process, if any, and the state reached. -/
def pollChannels {F : Type} [Zero F] (conv : GoString → Except NumErr F) :
    List Channel → Poll F → Option Panic × Poll F
  | [], st => (none, st)
  | CH :: rest, st =>
    match st.dp.Measure conv CH with
    | (.panicked p, dp) =>
      (some p, { dp := dp, printed := st.printed, queried := st.queried ++ [CH] })
    | (.returned _ (some err), dp) =>
      (some (.ofError err), { dp := dp, printed := st.printed, queried := st.queried ++ [CH] })
    | (.returned m none, dp) =>
      pollChannels conv rest
        { dp := dp, printed := st.printed ++ [m], queried := st.queried ++ [CH] }

/-- The panic that a call of `Measure` in the poll loop ends the process
with, if any: its own panic, or `panic(err)` for the error it returns. -/
def failure {α : Type} : Result α → Option Panic
  | .panicked p => some p
  | .returned _ (some err) => some (.ofError err)
  | .returned _ none => none

/-- One pass of the poll loop of `main`, the work done on one tick:
`for _, CH := range []Channel{Ch1, Ch2, Ch3}`. -/
def pollPass {F : Type} [Zero F] (conv : GoString → Except NumErr F) (st : Poll F) :
    Option Panic × Poll F :=
  pollChannels conv [Ch1, Ch2, Ch3] st

/-! ## Fixtures: connections whose peer answers with given reply bytes -/

/-- A peer that accepts the write and answers with the bytes `reply`. -/
def answer (reply : GoString) : Exchange :=
  { writeErr := none, incoming := reply, readErr := .net "EOF".toList }

/-- A connected client whose peer answers the coming exchanges with `replies`. -/
def connected (replies : List GoString) : DP832 :=
  { conn := some { wrote := [], peer := replies.map answer }, Addr := "192.168.0.200:5555".toList }

/-- A network on which every dial reaches a peer that answers with `replies`. -/
def network (replies : List GoString) : GoString → GoString → Except Error Conn :=
  fun _ _ => .ok { wrote := [], peer := replies.map answer }

/-! ## Properties of the library functions -/

theorem Split_of_not_mem (sep : Char) (f : GoString) (h : sep ∉ f) :
    strings.Split f sep = [f] := by
  induction f with
  | nil => rfl
  | cons c cs ih =>
    have hc : c ≠ sep := fun e => h (by simp [e])
    have hcs : sep ∉ cs := fun e => h (by simp [e])
    simp [strings.Split, hc, ih hcs]

theorem Split_append_sep (sep : Char) (f rest : GoString) (h : sep ∉ f) :
    strings.Split (f ++ sep :: rest) sep = f :: strings.Split rest sep := by
  induction f with
  | nil => simp [strings.Split]
  | cons c cs ih =>
    have hc : c ≠ sep := fun e => h (by simp [e])
    have hcs : sep ∉ cs := fun e => h (by simp [e])
    simp [strings.Split, hc, ih hcs]

theorem Split_length_pos (sep : Char) (s : GoString) : 0 < (strings.Split s sep).length := by
  induction s with
  | nil => simp [strings.Split]
  | cons c cs ih =>
    unfold strings.Split
    split
    · simp
    · split
      · simp
      · simp

theorem upTo_length_pos (delim : Char) (stream line : GoString)
    (h : bufio.upTo delim stream = some line) : 0 < line.length := by
  induction stream generalizing line with
  | nil => simp [bufio.upTo] at h
  | cons c cs ih =>
    unfold bufio.upTo at h
    split at h
    · cases h; simp
    · cases hrec : bufio.upTo delim cs with
      | none => simp [hrec] at h
      | some l => simp [hrec] at h; subst h; simp

theorem parsenumLoop_length (s : GoString) (num : Nat) (isnum : Bool) :
    (fmt.parsenumLoop s num isnum).2.2.length ≤ s.length := by
  induction s generalizing num isnum with
  | nil => simp [fmt.parsenumLoop]
  | cons c cs ih =>
    unfold fmt.parsenumLoop
    split
    · split
      · simp
      · exact Nat.le_succ_of_le (ih _ _)
    · simp

theorem argNumber_length (good : Bool) (s : GoString) :
    (fmt.argNumber good s).2.1.length ≤ s.length := by
  unfold fmt.argNumber
  split
  · simp
  · simp

theorem verbRune_length (s : GoString) (h : s ≠ []) : (fmt.verbRune s).2.length < s.length := by
  have hpos : 0 < s.length := List.length_pos.mpr h
  unfold fmt.verbRune
  split
  · simp
    omega
  · simp
    omega

theorem verbWidth_length (good : Bool) (s : GoString) (afterIndex : Bool) :
    (fmt.verbWidth good s afterIndex).2.2.1.length ≤ s.length := by
  unfold fmt.verbWidth
  split
  · simp
  · exact parsenumLoop_length _ _ _

theorem verbPrecision_length (good : Bool) (s : GoString) (afterIndex : Bool) :
    (fmt.verbPrecision good s afterIndex).2.2.1.length ≤ s.length := by
  unfold fmt.verbPrecision
  split
  · rename_i t
    have h1 := argNumber_length (good && !afterIndex) t
    generalize fmt.argNumber (good && !afterIndex) t = q at h1
    rcases q with ⟨g, u, ai⟩
    simp only at h1 ⊢
    split
    · simp at h1 ⊢; omega
    · have h2 := parsenumLoop_length u 0 false
      unfold fmt.parsenum
      generalize fmt.parsenumLoop u 0 false = q2 at h2
      rcases q2 with ⟨_, _, w⟩
      simp only [List.length_cons] at h2 ⊢
      omega
  · simp

theorem verbLetter_length (good : Bool) (s : GoString) :
    (fmt.verbLetter good s).2.length ≤ s.length := by
  unfold fmt.verbLetter
  split
  · simp
  · rename_i hne
    have h := verbRune_length s (by simpa using hne)
    generalize fmt.verbRune s = q at h
    rcases q with ⟨v, rest⟩
    simp only at h ⊢
    repeat' split
    all_goals simp only; omega

theorem verb_length (s : GoString) : (fmt.verb s).2.length ≤ s.length := by
  have hflags : (s.dropWhile fmt.isFlag).length ≤ s.length :=
    (List.dropWhile_sublist _).length_le
  unfold fmt.verb
  have h1 := argNumber_length true (s.dropWhile fmt.isFlag)
  generalize fmt.argNumber true (s.dropWhile fmt.isFlag) = q1 at h1 ⊢
  rcases q1 with ⟨g1, s1, a1⟩
  try dsimp only
  have h2 := verbWidth_length g1 s1 a1
  generalize fmt.verbWidth g1 s1 a1 = q2 at h2 ⊢
  rcases q2 with ⟨o2, g2, s2, a2⟩
  try dsimp only
  have h3 := verbPrecision_length g2 s2 a2
  generalize fmt.verbPrecision g2 s2 a2 = q3 at h3 ⊢
  rcases q3 with ⟨o3, g3, s3, a3⟩
  try dsimp only
  have h4 : (if a3 then (g3, s3, a3) else fmt.argNumber g3 s3).2.1.length ≤ s3.length := by
    split
    · simp
    · exact argNumber_length g3 s3
  simp only at h1 h2 h3 h4 ⊢
  generalize (if a3 = true then (g3, s3, a3) else fmt.argNumber g3 s3) = q4 at h4 ⊢
  rcases q4 with ⟨g4, s4, a4⟩
  try dsimp only
  have h5 := verbLetter_length g4 s4
  generalize fmt.verbLetter g4 s4 = q5 at h5 ⊢
  rcases q5 with ⟨o5, rest⟩
  try dsimp only
  simp only at h4 h5 ⊢
  omega

/-- The rounds of `doPrintf` never run out: any two numbers of rounds above
the length of the format give the same bytes. -/
theorem doPrintf_rounds (n m : Nat) (format : GoString)
    (hn : format.length < n) (hm : format.length < m) :
    fmt.doPrintf n format = fmt.doPrintf m format := by
  induction n generalizing m format with
  | zero => omega
  | succ n ih =>
    cases m with
    | zero => omega
    | succ m =>
      unfold fmt.doPrintf
      simp only
      split
      · rfl
      · rename_i c afterPercent hdrop
        have hsub : (c :: afterPercent).length ≤ format.length := by
          rw [← hdrop]; exact (List.dropWhile_sublist _).length_le
        have hv := verb_length afterPercent
        generalize fmt.verb afterPercent = q at hv ⊢
        rcases q with ⟨out, rest⟩
        simp only at hv ⊢
        simp only [List.length_cons] at hsub
        rw [ih m rest (by omega) (by omega)]

/-- A line returned by the reader is a run of bytes without the delimiter
followed by the delimiter. -/
theorem upTo_spec (delim : Char) (stream line : GoString)
    (h : bufio.upTo delim stream = some line) :
    ∃ p, line = p ++ [delim] ∧ delim ∉ p := by
  induction stream generalizing line with
  | nil => simp [bufio.upTo] at h
  | cons c cs ih =>
    unfold bufio.upTo at h
    split at h
    · rename_i hc
      cases h
      exact ⟨[], by simp [hc], by simp⟩
    · rename_i hc
      cases hrec : bufio.upTo delim cs with
      | none => simp [hrec] at h
      | some l =>
        simp [hrec] at h
        subst h
        obtain ⟨p, hp, hnot⟩ := ih l hrec
        refine ⟨c :: p, by simp [hp], ?_⟩
        intro hmem
        rcases List.mem_cons.mp hmem with e | e
        · exact hc e.symm
        · exact hnot e

/-- The reader stops at the first delimiter. -/
theorem upTo_append (delim : Char) (p rest : GoString) (h : delim ∉ p) :
    bufio.upTo delim (p ++ delim :: rest) = some (p ++ [delim]) := by
  induction p with
  | nil => simp [bufio.upTo]
  | cons c cs ih =>
    have hc : c ≠ delim := fun e => h (by simp [e])
    have hcs : delim ∉ cs := fun e => h (by simp [e])
    simp [bufio.upTo, hc, ih hcs]

/-! ## Properties of the program -/

/-- The state of the client after `command`: one more `Write`, one exchange used up. -/
theorem command_state (d : DP832) (conn : Conn) (cmd : GoString) (hconn : d.conn = some conn) :
    (d.command cmd).2 =
      { d with conn := some { wrote := conn.wrote ++ [fmt.Sprintf0 (cmd ++ ['\n'])],
                              peer := conn.peer.tail } } := by
  unfold DP832.command
  simp only [hconn]
  split
  · rfl
  · split
    · rfl
    · split <;> rfl

/-- The result of `command` when the write succeeds and the read returns a line. -/
theorem command_line (d : DP832) (conn : Conn) (cmd r : GoString)
    (hconn : d.conn = some conn)
    (hw : (conn.peer.headD Exchange.closed).writeErr = none)
    (hr : bufio.ReadString (conn.peer.headD Exchange.closed).incoming
            (conn.peer.headD Exchange.closed).readErr '\n' = (r, none)) :
    (d.command cmd).1 =
      if r.length < 2 then .panicked (.sliceBounds ((r.length : Int) - 2))
      else .returned (r.take (r.length - 2)) none := by
  unfold DP832.command
  simp only [hconn, hw, hr]
  split <;> rfl

/-- The three ways `Measure` ends once the exchange has returned the payload
`s`: the parse error of the leftmost non-numeric field among the first
three, a panic at the first missing field, or the decoded measurement. -/
theorem Measure_after_command {F : Type} [Zero F] (conv : GoString → Except NumErr F)
    (d d' : DP832) (ch : Channel) (s : GoString)
    (hcmd : d.command (DP832.Measure.cmd ch) = (.returned s none, d')) :
    (∃ k fk reason m, k < 3 ∧ (strings.Split s ',').get? k = some fk ∧ conv fk = .error reason ∧
        (∀ j fj, j < k → (strings.Split s ',').get? j = some fj → ∃ v, conv fj = .ok v) ∧
        d.Measure conv ch =
          (.returned m (some (.num { Func := "ParseFloat".toList, Num := fk, Err := reason })), d'))
    ∨ ((strings.Split s ',').length < 3 ∧
        (∀ f, f ∈ strings.Split s ',' → ∃ v, conv f = .ok v) ∧
        d.Measure conv ch =
          (.panicked (.indexOutOfRange (strings.Split s ',').length (strings.Split s ',').length), d'))
    ∨ (∃ f0 f1 f2 more v0 v1 v2, strings.Split s ',' = f0 :: f1 :: f2 :: more ∧
        conv f0 = .ok v0 ∧ conv f1 = .ok v1 ∧ conv f2 = .ok v2 ∧
        d.Measure conv ch =
          (.returned { Channel := ch, Voltage := v1, Current := v0, Power := v2 } none, d')) := by
  have hpos := Split_length_pos ',' s
  unfold DP832.Measure
  simp only [hcmd]
  generalize strings.Split s ',' = a at hpos ⊢
  match a, hpos with
  | f0 :: rest, _ =>
    cases h0 : conv f0 with
    | error reason =>
      left
      refine ⟨0, f0, reason, Measurement.zero, by decide, rfl, h0, ?_, ?_⟩
      · intro j fj hj; omega
      · simp [strconv.ParseFloat, h0]
    | ok v0 =>
      match rest with
      | [] =>
        right; left
        refine ⟨by simp, ?_, ?_⟩
        · intro f hf
          simp at hf
          subst hf
          exact ⟨v0, h0⟩
        · simp [strconv.ParseFloat, h0]
      | f1 :: rest =>
        cases h1 : conv f1 with
        | error reason =>
          left
          refine ⟨1, f1, reason, { (Measurement.zero : Measurement F) with Current := v0 }, by decide, rfl, h1, ?_, ?_⟩
          · intro j fj hj hget
            have : j = 0 := by omega
            subst this
            simp at hget
            subst hget
            exact ⟨v0, h0⟩
          · simp [strconv.ParseFloat, h0, h1]
        | ok v1 =>
          match rest with
          | [] =>
            right; left
            refine ⟨by simp, ?_, ?_⟩
            · intro f hf
              simp at hf
              rcases hf with hf | hf
              · subst hf; exact ⟨v0, h0⟩
              · subst hf; exact ⟨v1, h1⟩
            · simp [strconv.ParseFloat, h0, h1]
          | f2 :: more =>
            cases h2 : conv f2 with
            | error reason =>
              left
              refine ⟨2, f2, reason, { (Measurement.zero : Measurement F) with Current := v0, Voltage := v1 }, by decide, rfl, h2, ?_, ?_⟩
              · intro j fj hj hget
                have : j = 0 ∨ j = 1 := by omega
                rcases this with hj0 | hj1
                · subst hj0
                  simp at hget
                  subst hget
                  exact ⟨v0, h0⟩
                · subst hj1
                  simp at hget
                  subst hget
                  exact ⟨v1, h1⟩
              · simp [strconv.ParseFloat, h0, h1, h2]
            | ok v2 =>
              right; right
              refine ⟨f0, f1, f2, more, v0, v1, v2, rfl, h0, h1, h2, ?_⟩
              simp [strconv.ParseFloat, h0, h1, h2, Measurement.zero]

/-- The client state after `Measure` is the state after its one `command`. -/
theorem Measure_state {F : Type} [Zero F] (conv : GoString → Except NumErr F)
    (d : DP832) (ch : Channel) :
    (d.Measure conv ch).2 = (d.command (DP832.Measure.cmd ch)).2 := by
  simp only [DP832.Measure]
  generalize d.command (DP832.Measure.cmd ch) = res
  rcases res with ⟨r, d1⟩
  cases r with
  | panicked p => rfl
  | returned s err =>
    cases err with
    | some e => rfl
    | none =>
      simp only
      repeat (first | rfl | split)

/-- A format without `%` is written unchanged. -/
theorem Sprintf0_of_no_percent (format : GoString) (h : '%' ∉ format) :
    fmt.Sprintf0 format = format := by
  have hall : ∀ c ∈ format, decide (c ≠ '%') = true := by
    intro c hc
    have : c ≠ '%' := fun e => h (e ▸ hc)
    simpa using this
  have htake : format.takeWhile (fun c => decide (c ≠ '%')) = format :=
    List.takeWhile_eq_self_iff.mpr hall
  have hdrop : format.dropWhile (fun c => decide (c ≠ '%')) = [] :=
    List.dropWhile_eq_nil_iff.mpr hall
  unfold fmt.Sprintf0 fmt.doPrintf
  simp only [hdrop, htake]

/-- The client state after `IDN` is the state after its one `command`. -/
theorem IDN_state (d : DP832) : d.IDN.2 = (d.command "*IDN?".toList).2 := by
  simp only [DP832.IDN]
  generalize d.command "*IDN?".toList = res
  rcases res with ⟨r, d1⟩
  cases r with
  | panicked p => rfl
  | returned s err =>
    cases err with
    | some e => rfl
    | none =>
      simp only
      repeat (first | rfl | split)

/-- The client state after `Connect` on a dial that succeeds is the state
after `IDN` on the new connection. -/
theorem Connect_state (Dial : GoString → GoString → Except Error Conn) (d : DP832) (conn : Conn)
    (hdial : Dial "tcp".toList d.Addr = .ok conn) :
    (d.Connect Dial).2 = (DP832.IDN { d with conn := some conn }).2 := by
  simp only [DP832.Connect, hdial]
  generalize DP832.IDN { conn := some conn, Addr := d.Addr } = res
  rcases res with ⟨r, d1⟩
  cases r with
  | panicked p => rfl
  | returned i err =>
    cases err with
    | some e => rfl
    | none =>
      simp only
      split <;> rfl

/-! ## The measurement reply: field order -/

/-- C1: for every channel and every stripped reply payload whose first three
comma-separated fields each parse as a number, `Measure` succeeds and
returns the first field as `Current`, the second as `Voltage` and the third
as `Power`. -/
theorem Measure_current_voltage_power {F : Type} [Zero F] (conv : GoString → Except NumErr F)
    (d d' : DP832) (ch : Channel) (s f0 f1 f2 : GoString) (more : List GoString) (v0 v1 v2 : F)
    (hcmd : d.command (DP832.Measure.cmd ch) = (.returned s none, d'))
    (hsplit : strings.Split s ',' = f0 :: f1 :: f2 :: more)
    (h0 : strconv.ParseFloat conv f0 = .ok v0)
    (h1 : strconv.ParseFloat conv f1 = .ok v1)
    (h2 : strconv.ParseFloat conv f2 = .ok v2) :
    d.Measure conv ch =
      (.returned { Channel := ch, Voltage := v1, Current := v0, Power := v2 } none, d') := by
  unfold DP832.Measure
  simp [hcmd, hsplit, h0, h1, h2, Measurement.zero]

/-- C1, the example of the specification: the payload `1.234,5.678,9.012`
on `Ch1` gives current 1.234, voltage 5.678 and power 9.012. -/
theorem Measure_current_voltage_power_witness :
    (connected ["1.234,5.678,9.012\r\n".toList]).Measure strconv.decimal Ch1 =
      (.returned
        { Channel := Ch1,
          Voltage := { neg := false, digits := 5678, scale := 3 },
          Current := { neg := false, digits := 1234, scale := 3 },
          Power := { neg := false, digits := 9012, scale := 3 } } none,
       { conn := some { wrote := ["MEAS:ALL? CH1\n".toList], peer := [] },
         Addr := "192.168.0.200:5555".toList }) :=
  Measure_current_voltage_power strconv.decimal
    (connected ["1.234,5.678,9.012\r\n".toList])
    { conn := some { wrote := ["MEAS:ALL? CH1\n".toList], peer := [] },
      Addr := "192.168.0.200:5555".toList }
    Ch1 "1.234,5.678,9.012".toList "1.234".toList "5.678".toList "9.012".toList []
    { neg := false, digits := 1234, scale := 3 }
    { neg := false, digits := 5678, scale := 3 }
    { neg := false, digits := 9012, scale := 3 }
    (by decide) (by decide) (by decide) (by decide) (by decide)

/-! ## The framing of a reply -/

/-- C2, as the code has it: for every reply line `r` of at least two bytes
that the read returns, `command` returns as payload `r` without its last two
bytes: `r` is the payload followed by the last two bytes of `r`, and the
payload is two bytes shorter than `r`. -/
theorem command_strips_two_bytes (d : DP832) (conn : Conn) (cmd r : GoString)
    (hconn : d.conn = some conn)
    (hw : (conn.peer.headD Exchange.closed).writeErr = none)
    (hr : bufio.ReadString (conn.peer.headD Exchange.closed).incoming
            (conn.peer.headD Exchange.closed).readErr '\n' = (r, none))
    (hlen : 2 ≤ r.length) :
    ∃ payload, (d.command cmd).1 = .returned payload none ∧
      payload = r.take (r.length - 2) ∧
      r = payload ++ r.drop (r.length - 2) ∧
      (r.drop (r.length - 2)).length = 2 ∧
      payload.length + 2 = r.length := by
  refine ⟨r.take (r.length - 2), ?_, rfl, ?_, ?_, ?_⟩
  · rw [command_line d conn cmd r hconn hw hr]
    simp
    omega
  · simp
  · simp
    omega
  · simp
    omega

/-- C2, the example of the specification: the reply bytes `OK\r\n` yield
the payload `OK`. -/
theorem command_strips_two_bytes_witness :
    ∃ payload, ((connected ["OK\r\n".toList]).command "*IDN?".toList).1 = .returned payload none ∧
      payload = "OK".toList ∧
      "OK\r\n".toList = payload ++ "\r\n".toList ∧
      ("\r\n".toList).length = 2 ∧
      payload.length + 2 = ("OK\r\n".toList).length :=
  command_strips_two_bytes (connected ["OK\r\n".toList])
    { wrote := [], peer := [answer "OK\r\n".toList] } "*IDN?".toList "OK\r\n".toList
    rfl (by decide) (by decide) (by decide)

/-- C2 fails on the one-byte line: the read returns the line `\n`, and
`command` returns no payload, it panics on the slice bound `-1`. -/
theorem command_one_byte_line_no_payload :
    bufio.ReadString "\n".toList (.net "EOF".toList) '\n' = ("\n".toList, none) ∧
    ((connected ["\n".toList]).command "*IDN?".toList).1 = .panicked (.sliceBounds (-1)) ∧
    ¬ ∃ payload, ((connected ["\n".toList]).command "*IDN?".toList).1 = .returned payload none := by
  have h : ((connected ["\n".toList]).command "*IDN?".toList).1 = .panicked (.sliceBounds (-1)) := by
    decide
  refine ⟨by decide, h, ?_⟩
  rintro ⟨payload, hp⟩
  rw [h] at hp
  cases hp

/-! ## The identification reply -/

/-- C3: for every identification reply whose payload consists of exactly
four comma-separated fields, none containing a comma, `IDN` succeeds and
returns them in order as manufacturer, model, serial and version,
unmodified. -/
theorem IDN_four_fields (d d' : DP832) (s f0 f1 f2 f3 : GoString)
    (hcmd : d.command "*IDN?".toList = (.returned s none, d'))
    (hs : s = f0 ++ ',' :: (f1 ++ ',' :: (f2 ++ ',' :: f3)))
    (h0 : ',' ∉ f0) (h1 : ',' ∉ f1) (h2 : ',' ∉ f2) (h3 : ',' ∉ f3) :
    strings.Split s ',' = [f0, f1, f2, f3] ∧
    d.IDN = (.returned { Manufacturer := f0, Model := f1, Serial := f2, Version := f3 } none, d') := by
  have hsplit : strings.Split s ',' = [f0, f1, f2, f3] := by
    rw [hs, Split_append_sep ',' f0 _ h0, Split_append_sep ',' f1 _ h1,
      Split_append_sep ',' f2 _ h2, Split_of_not_mem ',' f3 h3]
  refine ⟨hsplit, ?_⟩
  unfold DP832.IDN
  rw [hcmd]
  simp [hsplit]

/-- C3, the example of the specification. -/
theorem IDN_four_fields_witness :
    strings.Split "RIGOL TECHNOLOGIES,DP832,DP8A123456789,00.01.02.03".toList ',' =
      ["RIGOL TECHNOLOGIES".toList, "DP832".toList, "DP8A123456789".toList, "00.01.02.03".toList] ∧
    (connected ["RIGOL TECHNOLOGIES,DP832,DP8A123456789,00.01.02.03\r\n".toList]).IDN =
      (.returned
        { Manufacturer := "RIGOL TECHNOLOGIES".toList, Model := "DP832".toList,
          Serial := "DP8A123456789".toList, Version := "00.01.02.03".toList } none,
       { conn := some { wrote := ["*IDN?\n".toList], peer := [] },
         Addr := "192.168.0.200:5555".toList }) :=
  IDN_four_fields
    (connected ["RIGOL TECHNOLOGIES,DP832,DP8A123456789,00.01.02.03\r\n".toList])
    { conn := some { wrote := ["*IDN?\n".toList], peer := [] },
      Addr := "192.168.0.200:5555".toList }
    "RIGOL TECHNOLOGIES,DP832,DP8A123456789,00.01.02.03".toList
    "RIGOL TECHNOLOGIES".toList "DP832".toList "DP8A123456789".toList "00.01.02.03".toList
    (by decide) (by decide) (by decide) (by decide) (by decide) (by decide)

/-! ## The model check of the handshake -/

/-- C4: when the dial and the identification exchange succeed, `Connect`
returns no error exactly when the parsed model is the byte string `DP832`;
for every other model it returns the error built by `Errorf`, whose text
ends with the observed model. -/
theorem Connect_accepts_only_DP832 (Dial : GoString → GoString → Except Error Conn)
    (d d' : DP832) (conn : Conn) (i : Instrument)
    (hdial : Dial "tcp".toList d.Addr = .ok conn)
    (hidn : DP832.IDN { d with conn := some conn } = (.returned i none, d')) :
    ((d.Connect Dial).1 = .returned () none ↔ i.Model = "DP832".toList) ∧
    (i.Model ≠ "DP832".toList →
      ∃ msg, (d.Connect Dial).1 = .returned () (some (.errorString msg)) ∧
        msg = "Epected model DP832, found ".toList ++ i.Model ∧
        i.Model <:+: msg) := by
  unfold DP832.Connect
  simp only [hdial, hidn]
  by_cases hm : i.Model = "DP832".toList
  · simp [hm]
  · simp only [ne_eq, hm, not_false_eq_true, ↓reduceIte, false_iff, forall_const]
    refine ⟨by simp, "Epected model DP832, found ".toList ++ i.Model, rfl, rfl, ?_⟩
    exact ⟨"Epected model DP832, found ".toList, [], by simp⟩

/-- C4, the example of the specification: a device reporting `DP831` is
rejected with an error that mentions `DP831`. -/
theorem Connect_accepts_only_DP832_witness :
    ((DP832.Connect
        (network ["RIGOL TECHNOLOGIES,DP831,DP8A123456789,00.01.02.03\r\n".toList])
        { conn := none, Addr := "192.168.0.200:5555".toList }).1 = .returned () none
      ↔ "DP831".toList = "DP832".toList) ∧
    ("DP831".toList ≠ "DP832".toList →
      ∃ msg, (DP832.Connect
          (network ["RIGOL TECHNOLOGIES,DP831,DP8A123456789,00.01.02.03\r\n".toList])
          { conn := none, Addr := "192.168.0.200:5555".toList }).1 =
            .returned () (some (.errorString msg)) ∧
        msg = "Epected model DP832, found ".toList ++ "DP831".toList ∧
        "DP831".toList <:+: msg) :=
  Connect_accepts_only_DP832
    (network ["RIGOL TECHNOLOGIES,DP831,DP8A123456789,00.01.02.03\r\n".toList])
    { conn := none, Addr := "192.168.0.200:5555".toList }
    { conn := some { wrote := ["*IDN?\n".toList], peer := [] },
      Addr := "192.168.0.200:5555".toList }
    { wrote := [],
      peer := [answer "RIGOL TECHNOLOGIES,DP831,DP8A123456789,00.01.02.03\r\n".toList] }
    { Manufacturer := "RIGOL TECHNOLOGIES".toList, Model := "DP831".toList,
      Serial := "DP8A123456789".toList, Version := "00.01.02.03".toList }
    (by decide) (by decide)

/-! ## The measurement query -/

/-- C5: for each channel of the enumeration, the command text that `Measure`
hands to `command` is `MEAS:ALL? ` followed by the protocol token of the
channel (empty for `ChCur`, `CH1`, `CH2`, `CH3`), and the bytes written to
the connection are that text and a line feed. -/
theorem Measure_sends_channel_token {F : Type} [Zero F] (conv : GoString → Except NumErr F)
    (d : DP832) (conn : Conn) (ch : Channel)
    (hconn : d.conn = some conn) (hch : ch ∈ [ChCur, Ch1, Ch2, Ch3]) :
    ∃ token,
      ((ch = ChCur ∧ token = []) ∨ (ch = Ch1 ∧ token = "CH1".toList) ∨
        (ch = Ch2 ∧ token = "CH2".toList) ∨ (ch = Ch3 ∧ token = "CH3".toList)) ∧
      DP832.Measure.cmd ch = "MEAS:ALL? ".toList ++ token ∧
      (d.Measure conv ch).2.conn =
        some { wrote := conn.wrote ++ ["MEAS:ALL? ".toList ++ token ++ ['\n']],
               peer := conn.peer.tail } := by
  rw [Measure_state, command_state d conn _ hconn]
  simp only [List.mem_cons, List.mem_singleton, List.not_mem_nil, or_false] at hch
  rcases hch with h | h | h | h
  · subst h
    exact ⟨[], Or.inl ⟨rfl, rfl⟩, by decide, by
      rw [Sprintf0_of_no_percent _ (by decide)]; rfl⟩
  · subst h
    exact ⟨"CH1".toList, Or.inr (Or.inl ⟨rfl, rfl⟩), by decide, by
      rw [Sprintf0_of_no_percent _ (by decide)]; rfl⟩
  · subst h
    exact ⟨"CH2".toList, Or.inr (Or.inr (Or.inl ⟨rfl, rfl⟩)), by decide, by
      rw [Sprintf0_of_no_percent _ (by decide)]; rfl⟩
  · subst h
    exact ⟨"CH3".toList, Or.inr (Or.inr (Or.inr ⟨rfl, rfl⟩)), by decide, by
      rw [Sprintf0_of_no_percent _ (by decide)]; rfl⟩

/-- C5 on the second channel of a fresh connection. -/
theorem Measure_sends_channel_token_witness :
    ∃ token,
      ((Ch2 = ChCur ∧ token = []) ∨ (Ch2 = Ch1 ∧ token = "CH1".toList) ∨
        (Ch2 = Ch2 ∧ token = "CH2".toList) ∨ (Ch2 = Ch3 ∧ token = "CH3".toList)) ∧
      DP832.Measure.cmd Ch2 = "MEAS:ALL? ".toList ++ token ∧
      ((connected ["0.5,12.0,6.0\r\n".toList]).Measure strconv.decimal Ch2).2.conn =
        some { wrote := [] ++ ["MEAS:ALL? ".toList ++ token ++ ['\n']],
               peer := [answer "0.5,12.0,6.0\r\n".toList].tail } :=
  Measure_sends_channel_token strconv.decimal (connected ["0.5,12.0,6.0\r\n".toList])
    { wrote := [], peer := [answer "0.5,12.0,6.0\r\n".toList] } Ch2 rfl (by decide)

/-- C6, as the code has it: for every channel `c` among `Ch1`, `Ch2`, `Ch3`
the argument token of the query is the entry of `c` in `chStrMap`, which is
the display token `Channel.String` returns for `c` with its letters in
upper case, and differs from that display token. -/
theorem Measure_token_is_upper_case_display (c : Channel) (hc : c ∈ [Ch1, Ch2, Ch3]) :
    ∃ display, Channel.String c = .ok display ∧
      DP832.Measure.cmd c = "MEAS:ALL? ".toList ++ mapIndex chStrMap c ∧
      mapIndex chStrMap c = display.map Char.toUpper ∧
      mapIndex chStrMap c ≠ display := by
  simp only [List.mem_cons, List.mem_singleton, List.not_mem_nil, or_false] at hc
  rcases hc with h | h | h
  · subst h; exact ⟨"Ch1".toList, by decide, rfl, by decide, by decide⟩
  · subst h; exact ⟨"Ch2".toList, by decide, rfl, by decide, by decide⟩
  · subst h; exact ⟨"Ch3".toList, by decide, rfl, by decide, by decide⟩

/-- C6 on the third channel. -/
theorem Measure_token_is_upper_case_display_witness :
    ∃ display, Channel.String Ch3 = .ok display ∧
      DP832.Measure.cmd Ch3 = "MEAS:ALL? ".toList ++ mapIndex chStrMap Ch3 ∧
      mapIndex chStrMap Ch3 = display.map Char.toUpper ∧
      mapIndex chStrMap Ch3 ≠ display :=
  Measure_token_is_upper_case_display Ch3 (by decide)

/-- C6 fails on `Ch1`: the display token is `Ch1`, the query is
`MEAS:ALL? CH1`, and its argument token is not the display token. -/
theorem Measure_token_is_not_display :
    Channel.String Ch1 = .ok "Ch1".toList ∧
    DP832.Measure.cmd Ch1 = "MEAS:ALL? CH1".toList ∧
    mapIndex chStrMap Ch1 = "CH1".toList ∧
    ¬ (DP832.Measure.cmd Ch1 = "MEAS:ALL? ".toList ++ "Ch1".toList) := by
  decide

/-! ## Malformed replies -/

/-- C7, as the code has it: for every channel and every reply whose payload
has fewer than three comma-separated fields, `Measure` returns no
measurement without an error and fills in no missing field: either a field
that is present is not numeric and the parse error of the leftmost such
field is returned, or all fields present are numeric and the call panics
with an index out of range at the first missing field. -/
theorem Measure_fewer_than_three_fields {F : Type} [Zero F]
    (conv : GoString → Except NumErr F) (d d' : DP832) (ch : Channel) (s : GoString)
    (hcmd : d.command (DP832.Measure.cmd ch) = (.returned s none, d'))
    (hlen : (strings.Split s ',').length < 3) :
    ((∃ k fk reason m, (strings.Split s ',').get? k = some fk ∧ conv fk = .error reason ∧
          (∀ j fj, j < k → (strings.Split s ',').get? j = some fj → ∃ v, conv fj = .ok v) ∧
          d.Measure conv ch =
            (.returned m (some (.num { Func := "ParseFloat".toList, Num := fk, Err := reason })), d'))
      ∨ ((∀ f, f ∈ strings.Split s ',' → ∃ v, conv f = .ok v) ∧
          d.Measure conv ch =
            (.panicked (.indexOutOfRange (strings.Split s ',').length (strings.Split s ',').length),
             d')))
    ∧ ∀ m, (d.Measure conv ch).1 ≠ .returned m none := by
  rcases Measure_after_command conv d d' ch s hcmd with
    ⟨k, fk, reason, m, _, hget, hbad, hbefore, hres⟩ | ⟨_, hall, hres⟩ |
    ⟨f0, f1, f2, more, _, _, _, hsplit, _⟩
  · refine ⟨Or.inl ⟨k, fk, reason, m, hget, hbad, hbefore, hres⟩, ?_⟩
    intro m' h
    rw [hres] at h
    cases h
  · refine ⟨Or.inr ⟨hall, hres⟩, ?_⟩
    intro m' h
    rw [hres] at h
    cases h
  · rw [hsplit] at hlen
    simp only [List.length_cons] at hlen
    omega

/-- C7 on the two-field payload `1.0,volts`: the parse error of the second
field is returned. -/
theorem Measure_fewer_than_three_fields_witness :
    ((∃ k fk reason m, (strings.Split "1.0,volts".toList ',').get? k = some fk ∧
          strconv.decimal fk = .error reason ∧
          (∀ j fj, j < k → (strings.Split "1.0,volts".toList ',').get? j = some fj →
            ∃ v, strconv.decimal fj = .ok v) ∧
          (connected ["1.0,volts\r\n".toList]).Measure strconv.decimal Ch1 =
            (.returned m (some (.num { Func := "ParseFloat".toList, Num := fk, Err := reason })),
             { conn := some { wrote := ["MEAS:ALL? CH1\n".toList], peer := [] },
               Addr := "192.168.0.200:5555".toList }))
      ∨ ((∀ f, f ∈ strings.Split "1.0,volts".toList ',' → ∃ v, strconv.decimal f = .ok v) ∧
          (connected ["1.0,volts\r\n".toList]).Measure strconv.decimal Ch1 =
            (.panicked (.indexOutOfRange (strings.Split "1.0,volts".toList ',').length
                (strings.Split "1.0,volts".toList ',').length),
             { conn := some { wrote := ["MEAS:ALL? CH1\n".toList], peer := [] },
               Addr := "192.168.0.200:5555".toList })))
    ∧ ∀ m, ((connected ["1.0,volts\r\n".toList]).Measure strconv.decimal Ch1).1 ≠
        .returned m none :=
  Measure_fewer_than_three_fields strconv.decimal (connected ["1.0,volts\r\n".toList])
    { conn := some { wrote := ["MEAS:ALL? CH1\n".toList], peer := [] },
      Addr := "192.168.0.200:5555".toList }
    Ch1 "1.0,volts".toList (by decide) (by decide)

/-- C7 fails on the one-field payload `1.0`: `Measure` returns no error, it
panics with `index out of range [1] with length 1`. -/
theorem Measure_one_field_panics :
    (strings.Split "1.0".toList ',').length < 3 ∧
    ((connected ["1.0\r\n".toList]).Measure strconv.decimal Ch1).1 =
      .panicked (.indexOutOfRange 1 1) ∧
    ¬ ∃ m err, ((connected ["1.0\r\n".toList]).Measure strconv.decimal Ch1).1 =
      .returned m (some err) := by
  have h : ((connected ["1.0\r\n".toList]).Measure strconv.decimal Ch1).1 =
      .panicked (.indexOutOfRange 1 1) := by decide
  refine ⟨by decide, h, ?_⟩
  rintro ⟨m, err, hm⟩
  rw [h] at hm
  cases hm

/-- C8: for every channel and every reply payload with at least three
comma-separated fields of which one of the first three does not parse as a
number, `Measure` returns an error, the `NumError` of the leftmost such
field, which carries the text of that field. -/
theorem Measure_reports_leftmost_bad_field {F : Type} [Zero F]
    (conv : GoString → Except NumErr F) (d d' : DP832) (ch : Channel)
    (s f0 f1 f2 : GoString) (more : List GoString)
    (hcmd : d.command (DP832.Measure.cmd ch) = (.returned s none, d'))
    (hsplit : strings.Split s ',' = f0 :: f1 :: f2 :: more)
    (hbad : ∃ f, f ∈ [f0, f1, f2] ∧ ∃ err, strconv.ParseFloat conv f = .error err) :
    ∃ k fk reason m, [f0, f1, f2].get? k = some fk ∧
      strconv.ParseFloat conv fk =
        .error (.num { Func := "ParseFloat".toList, Num := fk, Err := reason }) ∧
      (∀ j fj, j < k → [f0, f1, f2].get? j = some fj → ∃ v, strconv.ParseFloat conv fj = .ok v) ∧
      d.Measure conv ch =
        (.returned m (some (.num { Func := "ParseFloat".toList, Num := fk, Err := reason })), d') := by
  have hfirst : ∀ j, j < 3 → (strings.Split s ',').get? j = [f0, f1, f2].get? j := by
    intro j hj
    rw [hsplit]
    match j, hj with
    | 0, _ => rfl
    | 1, _ => rfl
    | 2, _ => rfl
  rcases Measure_after_command conv d d' ch s hcmd with
    ⟨k, fk, reason, m, hk, hget, hfk, hbefore, hres⟩ | ⟨hlen, _, _⟩ |
    ⟨g0, g1, g2, more', v0, v1, v2, hsplit', h0, h1, h2, _⟩
  · refine ⟨k, fk, reason, m, ?_, ?_, ?_, hres⟩
    · rw [← hfirst k hk]; exact hget
    · simp [strconv.ParseFloat, hfk]
    · intro j fj hj hgetj
      rw [← hfirst j (by omega)] at hgetj
      obtain ⟨v, hv⟩ := hbefore j fj hj hgetj
      exact ⟨v, by simp [strconv.ParseFloat, hv]⟩
  · rw [hsplit] at hlen
    simp only [List.length_cons] at hlen
    omega
  · exfalso
    rw [hsplit] at hsplit'
    simp only [List.cons.injEq] at hsplit'
    obtain ⟨e0, e1, e2, _⟩ := hsplit'
    subst e0 e1 e2
    obtain ⟨f, hf, err, herr⟩ := hbad
    simp only [List.mem_cons, List.mem_singleton, List.not_mem_nil, or_false] at hf
    rcases hf with hf | hf | hf <;> subst hf <;> simp [strconv.ParseFloat, h0, h1, h2] at herr

/-- C8, the example of the specification: the payload `abc,1.0,2.0` fails
with the error of the first field, `abc`. -/
theorem Measure_reports_leftmost_bad_field_witness :
    ∃ k fk reason m, ["abc".toList, "1.0".toList, "2.0".toList].get? k = some fk ∧
      strconv.ParseFloat strconv.decimal fk =
        .error (.num { Func := "ParseFloat".toList, Num := fk, Err := reason }) ∧
      (∀ j fj, j < k → ["abc".toList, "1.0".toList, "2.0".toList].get? j = some fj →
        ∃ v, strconv.ParseFloat strconv.decimal fj = .ok v) ∧
      (connected ["abc,1.0,2.0\r\n".toList]).Measure strconv.decimal Ch1 =
        (.returned m (some (.num { Func := "ParseFloat".toList, Num := fk, Err := reason })),
         { conn := some { wrote := ["MEAS:ALL? CH1\n".toList], peer := [] },
           Addr := "192.168.0.200:5555".toList }) :=
  Measure_reports_leftmost_bad_field strconv.decimal (connected ["abc,1.0,2.0\r\n".toList])
    { conn := some { wrote := ["MEAS:ALL? CH1\n".toList], peer := [] },
      Addr := "192.168.0.200:5555".toList }
    Ch1 "abc,1.0,2.0".toList "abc".toList "1.0".toList "2.0".toList []
    (by decide) (by decide)
    ⟨"abc".toList, (by decide),
      Error.num { Func := "ParseFloat".toList, Num := "abc".toList, Err := NumErr.badSyntax },
      (by decide)⟩

/-- C9, as the code has it: for every identification reply whose payload
has fewer than four comma-separated fields, `IDN` panics with an index out
of range at the first missing field; it returns neither an error nor an
`Instrument`, so no missing field is ever filled with a default. -/
theorem IDN_fewer_than_four_fields (d d' : DP832) (s : GoString)
    (hcmd : d.command "*IDN?".toList = (.returned s none, d'))
    (hlen : (strings.Split s ',').length < 4) :
    d.IDN =
      (.panicked (.indexOutOfRange (strings.Split s ',').length (strings.Split s ',').length), d')
    ∧ ∀ i err, d.IDN.1 ≠ .returned i err := by
  have hpos := Split_length_pos ',' s
  have hres : d.IDN =
      (.panicked (.indexOutOfRange (strings.Split s ',').length (strings.Split s ',').length),
       d') := by
    unfold DP832.IDN
    rw [hcmd]
    simp only
    generalize strings.Split s ',' = a at hpos hlen ⊢
    match a, hpos, hlen with
    | [_], _, _ => rfl
    | [_, _], _, _ => rfl
    | [_, _, _], _, _ => rfl
    | _ :: _ :: _ :: _ :: _, _, h => simp only [List.length_cons] at h; omega
  refine ⟨hres, ?_⟩
  intro i err h
  rw [hres] at h
  cases h

/-- C9 on the two-field reply `RIGOL TECHNOLOGIES,DP832`. -/
theorem IDN_fewer_than_four_fields_witness :
    (connected ["RIGOL TECHNOLOGIES,DP832\r\n".toList]).IDN =
      (.panicked (.indexOutOfRange (strings.Split "RIGOL TECHNOLOGIES,DP832".toList ',').length
          (strings.Split "RIGOL TECHNOLOGIES,DP832".toList ',').length),
       { conn := some { wrote := ["*IDN?\n".toList], peer := [] },
         Addr := "192.168.0.200:5555".toList })
    ∧ ∀ i err, (connected ["RIGOL TECHNOLOGIES,DP832\r\n".toList]).IDN.1 ≠ .returned i err :=
  IDN_fewer_than_four_fields (connected ["RIGOL TECHNOLOGIES,DP832\r\n".toList])
    { conn := some { wrote := ["*IDN?\n".toList], peer := [] },
      Addr := "192.168.0.200:5555".toList }
    "RIGOL TECHNOLOGIES,DP832".toList (by decide) (by decide)

/-- C9 fails on the three-field reply `RIGOL TECHNOLOGIES,DP832,DP8A123456789`:
`IDN` returns no error to its caller, it panics with
`index out of range [3] with length 3`. -/
theorem IDN_three_fields_panics :
    (strings.Split "RIGOL TECHNOLOGIES,DP832,DP8A123456789".toList ',').length < 4 ∧
    (connected ["RIGOL TECHNOLOGIES,DP832,DP8A123456789\r\n".toList]).IDN.1 =
      .panicked (.indexOutOfRange 3 3) ∧
    ¬ ∃ i err, (connected ["RIGOL TECHNOLOGIES,DP832,DP8A123456789\r\n".toList]).IDN.1 =
      .returned i (some err) := by
  have h : (connected ["RIGOL TECHNOLOGIES,DP832,DP8A123456789\r\n".toList]).IDN.1 =
      .panicked (.indexOutOfRange 3 3) := by decide
  refine ⟨by decide, h, ?_⟩
  rintro ⟨i, err, hi⟩
  rw [h] at hi
  cases hi

/-! ## The bytes written for a command -/

/-- C10 on the command `%d`: the bytes handed to the connection are
`%!d(MISSING)` and a line feed, not the command and a line feed, because the
command is the format of `Fprintf` and `%d` is read as a verb without
operand. -/
theorem command_percent_is_rewritten :
    ((connected []).command "%d".toList).2.conn =
      some { wrote := ["%!d(MISSING)\n".toList], peer := [] } ∧
    "%!d(MISSING)\n".toList ≠ "%d".toList ++ ['\n'] := by
  decide

/-! ## The channel of a measurement -/

/-- C11: whenever `Measure` succeeds for a channel, whatever the reply, the
`Channel` field of the measurement it returns is the channel that was
queried. -/
theorem Measure_channel_is_queried {F : Type} [Zero F] (conv : GoString → Except NumErr F)
    (d d' : DP832) (ch : Channel) (m : Measurement F)
    (hok : d.Measure conv ch = (.returned m none, d')) :
    m.Channel = ch := by
  have hstate := Measure_state conv d ch
  rw [hok] at hstate
  simp only at hstate
  rcases hc : d.command (DP832.Measure.cmd ch) with ⟨r, d1⟩
  rw [hc] at hstate
  simp only at hstate
  subst hstate
  cases r with
  | panicked p =>
    simp only [DP832.Measure, hc] at hok
    cases hok
  | returned s err =>
    cases err with
    | some e =>
      simp only [DP832.Measure, hc] at hok
      cases hok
    | none =>
      rcases Measure_after_command conv d d' ch s hc with
        ⟨_, _, _, _, _, _, _, _, hres⟩ | ⟨_, _, hres⟩ | ⟨_, _, _, _, _, _, _, _, _, _, _, hres⟩
      · rw [hres] at hok
        simp at hok
      · rw [hres] at hok
        simp at hok
      · rw [hres] at hok
        simp only [Prod.mk.injEq, Result.returned.injEq, and_true] at hok
        rw [← hok]

/-- C11 on two different payloads decoded for `Ch2`: both measurements carry
`Ch2`. -/
theorem Measure_channel_is_queried_witness :
    ((connected ["0.5,12.0,6.0\r\n".toList]).Measure strconv.decimal Ch2 =
        (.returned
          { Channel := Ch2,
            Voltage := { neg := false, digits := 120, scale := 1 },
            Current := { neg := false, digits := 5, scale := 1 },
            Power := { neg := false, digits := 60, scale := 1 } } none,
         { conn := some { wrote := ["MEAS:ALL? CH2\n".toList], peer := [] },
           Addr := "192.168.0.200:5555".toList }) ∧
      ({ Channel := Ch2,
         Voltage := { neg := false, digits := 120, scale := 1 },
         Current := { neg := false, digits := 5, scale := 1 },
         Power := { neg := false, digits := 60, scale := 1 } } :
         Measurement strconv.Decimal).Channel = Ch2) ∧
    ((connected ["1,3.3,3.3\r\n".toList]).Measure strconv.decimal Ch2 =
        (.returned
          { Channel := Ch2,
            Voltage := { neg := false, digits := 33, scale := 1 },
            Current := { neg := false, digits := 1, scale := 0 },
            Power := { neg := false, digits := 33, scale := 1 } } none,
         { conn := some { wrote := ["MEAS:ALL? CH2\n".toList], peer := [] },
           Addr := "192.168.0.200:5555".toList }) ∧
      ({ Channel := Ch2,
         Voltage := { neg := false, digits := 33, scale := 1 },
         Current := { neg := false, digits := 1, scale := 0 },
         Power := { neg := false, digits := 33, scale := 1 } } :
         Measurement strconv.Decimal).Channel = Ch2) :=
  ⟨⟨by decide,
    Measure_channel_is_queried strconv.decimal (connected ["0.5,12.0,6.0\r\n".toList])
      { conn := some { wrote := ["MEAS:ALL? CH2\n".toList], peer := [] },
        Addr := "192.168.0.200:5555".toList } Ch2 _ (by decide)⟩,
   ⟨by decide,
    Measure_channel_is_queried strconv.decimal (connected ["1,3.3,3.3\r\n".toList])
      { conn := some { wrote := ["MEAS:ALL? CH2\n".toList], peer := [] },
        Addr := "192.168.0.200:5555".toList } Ch2 _ (by decide)⟩⟩

/-! ## A reply with more than three fields -/

/-- C12, as the code has it: a measurement reply whose payload has more than
three comma-separated fields is not rejected for its field count: when the
first three fields parse as numbers `Measure` decodes them as current,
voltage and power and ignores the fields after them. -/
theorem Measure_ignores_extra_fields {F : Type} [Zero F] (conv : GoString → Except NumErr F)
    (d d' : DP832) (ch : Channel) (s f0 f1 f2 f3 : GoString) (more : List GoString)
    (v0 v1 v2 : F)
    (hcmd : d.command (DP832.Measure.cmd ch) = (.returned s none, d'))
    (hsplit : strings.Split s ',' = f0 :: f1 :: f2 :: f3 :: more)
    (h0 : strconv.ParseFloat conv f0 = .ok v0)
    (h1 : strconv.ParseFloat conv f1 = .ok v1)
    (h2 : strconv.ParseFloat conv f2 = .ok v2) :
    3 < (strings.Split s ',').length ∧
    d.Measure conv ch =
      (.returned { Channel := ch, Voltage := v1, Current := v0, Power := v2 } none, d') := by
  refine ⟨by simp [hsplit], ?_⟩
  unfold DP832.Measure
  simp [hcmd, hsplit, h0, h1, h2, Measurement.zero]

/-- C12 on a five-field payload whose last fields are not even numbers. -/
theorem Measure_ignores_extra_fields_witness :
    3 < (strings.Split "0.5,12.0,6.0,CV,ON".toList ',').length ∧
    (connected ["0.5,12.0,6.0,CV,ON\r\n".toList]).Measure strconv.decimal Ch3 =
      (.returned
        { Channel := Ch3,
          Voltage := { neg := false, digits := 120, scale := 1 },
          Current := { neg := false, digits := 5, scale := 1 },
          Power := { neg := false, digits := 60, scale := 1 } } none,
       { conn := some { wrote := ["MEAS:ALL? CH3\n".toList], peer := [] },
         Addr := "192.168.0.200:5555".toList }) :=
  Measure_ignores_extra_fields strconv.decimal (connected ["0.5,12.0,6.0,CV,ON\r\n".toList])
    { conn := some { wrote := ["MEAS:ALL? CH3\n".toList], peer := [] },
      Addr := "192.168.0.200:5555".toList }
    Ch3 "0.5,12.0,6.0,CV,ON".toList "0.5".toList "12.0".toList "6.0".toList "CV".toList
    ["ON".toList]
    { neg := false, digits := 5, scale := 1 }
    { neg := false, digits := 120, scale := 1 }
    { neg := false, digits := 60, scale := 1 }
    (by decide) (by decide) (by decide) (by decide) (by decide)

/-- C12 fails on the payload `1.0,2.0,3.0,4.0`: it has four fields and
`Measure` returns a measurement without error, decoded from the first
three. -/
theorem Measure_four_fields_decoded :
    (strings.Split "1.0,2.0,3.0,4.0".toList ',').length = 4 ∧
    ((connected ["1.0,2.0,3.0,4.0\r\n".toList]).Measure strconv.decimal Ch1).1 =
      .returned
        { Channel := Ch1,
          Voltage := { neg := false, digits := 20, scale := 1 },
          Current := { neg := false, digits := 10, scale := 1 },
          Power := { neg := false, digits := 30, scale := 1 } } none ∧
    ¬ ∃ m err, ((connected ["1.0,2.0,3.0,4.0\r\n".toList]).Measure strconv.decimal Ch1).1 =
      .returned m (some err) := by
  have h : ((connected ["1.0,2.0,3.0,4.0\r\n".toList]).Measure strconv.decimal Ch1).1 =
      .returned
        { Channel := Ch1,
          Voltage := { neg := false, digits := 20, scale := 1 },
          Current := { neg := false, digits := 10, scale := 1 },
          Power := { neg := false, digits := 30, scale := 1 } } none := by decide
  refine ⟨by decide, h, ?_⟩
  rintro ⟨m, err, hm⟩
  rw [h] at hm
  cases hm

/-! ## The commands sent by the handshake -/

/-- C13: in every execution of `Connect`, whatever the device replies, the
commands sent are at most the one identification query: either the dial
fails and nothing is written, or the only `Write` added to the connection is
`*IDN?` and a line feed.  In particular, when the device reports a model
other than `DP832`, `Connect` returns an error and no `MEAS:ALL?` command has
been written. -/
theorem Connect_sends_only_IDN (Dial : GoString → GoString → Except Error Conn) (d : DP832) :
    ((∃ err, Dial "tcp".toList d.Addr = .error err ∧
        d.Connect Dial = (.returned () (some err), d))
      ∨ (∃ conn, Dial "tcp".toList d.Addr = .ok conn ∧
        (d.Connect Dial).2.conn =
          some { wrote := conn.wrote ++ ["*IDN?\n".toList], peer := conn.peer.tail }))
    ∧ ¬ ("MEAS:ALL?".toList <+: "*IDN?\n".toList)
    ∧ (∀ conn i d', Dial "tcp".toList d.Addr = .ok conn →
        DP832.IDN { d with conn := some conn } = (.returned i none, d') →
        i.Model ≠ "DP832".toList →
        (∃ err, (d.Connect Dial).1 = .returned () (some err)) ∧
        (d.Connect Dial).2.conn =
          some { wrote := conn.wrote ++ ["*IDN?\n".toList], peer := conn.peer.tail }) := by
  have hsent : ∀ conn, Dial "tcp".toList d.Addr = .ok conn →
      (d.Connect Dial).2.conn =
        some { wrote := conn.wrote ++ ["*IDN?\n".toList], peer := conn.peer.tail } := by
    intro conn hdial
    rw [Connect_state Dial d conn hdial, IDN_state,
      command_state _ conn _ rfl, Sprintf0_of_no_percent _ (by decide)]
    rfl
  refine ⟨?_, by decide, ?_⟩
  · cases hdial : Dial "tcp".toList d.Addr with
    | error err =>
      left
      exact ⟨err, rfl, by simp only [DP832.Connect, hdial]⟩
    | ok conn =>
      right
      exact ⟨conn, rfl, hsent conn hdial⟩
  · intro conn i d' hdial hidn hmodel
    refine ⟨⟨modelMismatch i.Model, ?_⟩, hsent conn hdial⟩
    simp only [DP832.Connect, hdial, hidn, ne_eq, hmodel, not_false_eq_true, ↓reduceIte]

/-- C13, the example of the specification: against a device that reports
`DP831`, `Connect` fails and the only bytes written are the identification
query. -/
theorem Connect_sends_only_IDN_witness :
    (∃ err, (DP832.Connect
        (network ["RIGOL TECHNOLOGIES,DP831,DP8A123456789,00.01.02.03\r\n".toList,
          "0.5,12.0,6.0\r\n".toList])
        { conn := none, Addr := "192.168.0.200:5555".toList }).1 = .returned () (some err)) ∧
    (DP832.Connect
        (network ["RIGOL TECHNOLOGIES,DP831,DP8A123456789,00.01.02.03\r\n".toList,
          "0.5,12.0,6.0\r\n".toList])
        { conn := none, Addr := "192.168.0.200:5555".toList }).2.conn =
      some { wrote := [] ++ ["*IDN?\n".toList],
             peer := [answer "RIGOL TECHNOLOGIES,DP831,DP8A123456789,00.01.02.03\r\n".toList,
                      answer "0.5,12.0,6.0\r\n".toList].tail } :=
  (Connect_sends_only_IDN
    (network ["RIGOL TECHNOLOGIES,DP831,DP8A123456789,00.01.02.03\r\n".toList,
      "0.5,12.0,6.0\r\n".toList])
    { conn := none, Addr := "192.168.0.200:5555".toList }).2.2
    { wrote := [],
      peer := [answer "RIGOL TECHNOLOGIES,DP831,DP8A123456789,00.01.02.03\r\n".toList,
               answer "0.5,12.0,6.0\r\n".toList] }
    { Manufacturer := "RIGOL TECHNOLOGIES".toList, Model := "DP831".toList,
      Serial := "DP8A123456789".toList, Version := "00.01.02.03".toList }
    { conn := some { wrote := ["*IDN?\n".toList], peer := [answer "0.5,12.0,6.0\r\n".toList] },
      Addr := "192.168.0.200:5555".toList }
    (by decide) (by decide) (by decide)

/-! ## One pass of the poll loop -/

/-- The step of the poll loop on a channel whose `Measure` fails. -/
theorem pollChannels_failure {F : Type} [Zero F] (conv : GoString → Except NumErr F)
    (CH : Channel) (rest : List Channel) (st : Poll F) (p : Panic)
    (h : failure (st.dp.Measure conv CH).1 = some p) :
    pollChannels conv (CH :: rest) st =
      (some p, { dp := (st.dp.Measure conv CH).2, printed := st.printed,
                 queried := st.queried ++ [CH] }) := by
  unfold pollChannels
  rcases hm : st.dp.Measure conv CH with ⟨r, d1⟩
  rw [hm] at h
  cases r with
  | panicked q =>
    simp only [failure, Option.some.injEq] at h
    subst h
    rfl
  | returned m err =>
    cases err with
    | some e =>
      simp only [failure, Option.some.injEq] at h
      subst h
      rfl
    | none => simp [failure] at h

/-- The step of the poll loop on a channel whose `Measure` succeeds. -/
theorem pollChannels_success {F : Type} [Zero F] (conv : GoString → Except NumErr F)
    (CH : Channel) (rest : List Channel) (st : Poll F) (m : Measurement F) (d1 : DP832)
    (h : st.dp.Measure conv CH = (.returned m none, d1)) :
    pollChannels conv (CH :: rest) st =
      pollChannels conv rest
        { dp := d1, printed := st.printed ++ [m], queried := st.queried ++ [CH] } := by
  conv => lhs; unfold pollChannels
  rw [h]

/-- Every call of `Measure` either fails or returns a measurement without error. -/
theorem failure_or_success {F : Type} [Zero F] (conv : GoString → Except NumErr F)
    (d : DP832) (CH : Channel) :
    (∃ p, failure (d.Measure conv CH).1 = some p) ∨
    (∃ m d1, d.Measure conv CH = (.returned m none, d1)) := by
  rcases hm : d.Measure conv CH with ⟨r, d1⟩
  cases r with
  | panicked q => exact Or.inl ⟨q, rfl⟩
  | returned m err =>
    cases err with
    | some e => exact Or.inl ⟨.ofError e, rfl⟩
    | none => exact Or.inr ⟨m, d1, rfl⟩

/-- C14: in every pass of the poll loop the channels are queried in the
order `Ch1`, `Ch2`, `Ch3` and the pass stops at the first `Measure` that
fails: the channels queried are the channels up to and including the failing
one, the measurements printed are the successful ones before it, in order,
and no later channel is queried or printed; without a failure all three are
queried and printed. -/
theorem pollPass_in_order_until_failure {F : Type} [Zero F]
    (conv : GoString → Except NumErr F) (st : Poll F) :
    (∃ p, failure (st.dp.Measure conv Ch1).1 = some p ∧
        pollPass conv st =
          (some p, { dp := (st.dp.Measure conv Ch1).2, printed := st.printed,
                     queried := st.queried ++ [Ch1] }))
    ∨ (∃ m1 d1 p, st.dp.Measure conv Ch1 = (.returned m1 none, d1) ∧
        failure (d1.Measure conv Ch2).1 = some p ∧
        pollPass conv st =
          (some p, { dp := (d1.Measure conv Ch2).2, printed := st.printed ++ [m1],
                     queried := st.queried ++ [Ch1, Ch2] }))
    ∨ (∃ m1 d1 m2 d2 p, st.dp.Measure conv Ch1 = (.returned m1 none, d1) ∧
        d1.Measure conv Ch2 = (.returned m2 none, d2) ∧
        failure (d2.Measure conv Ch3).1 = some p ∧
        pollPass conv st =
          (some p, { dp := (d2.Measure conv Ch3).2, printed := st.printed ++ [m1, m2],
                     queried := st.queried ++ [Ch1, Ch2, Ch3] }))
    ∨ (∃ m1 d1 m2 d2 m3 d3, st.dp.Measure conv Ch1 = (.returned m1 none, d1) ∧
        d1.Measure conv Ch2 = (.returned m2 none, d2) ∧
        d2.Measure conv Ch3 = (.returned m3 none, d3) ∧
        pollPass conv st =
          (none, { dp := d3, printed := st.printed ++ [m1, m2, m3],
                   queried := st.queried ++ [Ch1, Ch2, Ch3] })) := by
  unfold pollPass
  rcases failure_or_success conv st.dp Ch1 with ⟨p, hp⟩ | ⟨m1, d1, h1⟩
  · exact Or.inl ⟨p, hp, pollChannels_failure conv Ch1 _ st p hp⟩
  · right
    rw [pollChannels_success conv Ch1 _ st m1 d1 h1]
    rcases failure_or_success conv d1 Ch2 with ⟨p, hp⟩ | ⟨m2, d2, h2⟩
    · refine Or.inl ⟨m1, d1, p, h1, hp, ?_⟩
      rw [pollChannels_failure conv Ch2 _ _ p hp]
      simp
    · right
      rw [pollChannels_success conv Ch2 _ _ m2 d2 h2]
      rcases failure_or_success conv d2 Ch3 with ⟨p, hp⟩ | ⟨m3, d3, h3⟩
      · refine Or.inl ⟨m1, d1, m2, d2, p, h1, h2, hp, ?_⟩
        rw [pollChannels_failure conv Ch3 _ _ p hp]
        simp
      · refine Or.inr ⟨m1, d1, m2, d2, m3, d3, h1, h2, h3, ?_⟩
        rw [pollChannels_success conv Ch3 _ _ m3 d3 h3]
        simp [pollChannels]

/-- A pass in which the second reply is malformed: `Ch1` is printed, the
process panics with the error of `Ch2`, and `Ch3` is never queried (its
reply is still pending). -/
theorem pollPass_stops_at_second_channel :
    pollPass strconv.decimal
      { dp := connected ["0.5,12.0,6.0\r\n".toList, "x,1,1\r\n".toList, "1,1,1\r\n".toList],
        printed := [], queried := [] } =
      (some (.ofError (.num { Func := "ParseFloat".toList, Num := "x".toList,
                              Err := .badSyntax })),
       { dp := { conn := some { wrote := ["MEAS:ALL? CH1\n".toList, "MEAS:ALL? CH2\n".toList],
                                peer := [answer "1,1,1\r\n".toList] },
                 Addr := "192.168.0.200:5555".toList },
         printed := [{ Channel := Ch1,
                       Voltage := { neg := false, digits := 120, scale := 1 },
                       Current := { neg := false, digits := 5, scale := 1 },
                       Power := { neg := false, digits := 60, scale := 1 } }],
         queried := [Ch1, Ch2] }) := by
  decide

/-! ## The tokens of the channels -/

/-- C15: for any two different channels among `ChCur`, `Ch1`, `Ch2`, `Ch3`,
`Channel.String` returns different display tokens, and the protocol tokens
in `chStrMap` are different too. -/
theorem tokens_pairwise_distinct (a b : Channel)
    (ha : a ∈ [ChCur, Ch1, Ch2, Ch3]) (hb : b ∈ [ChCur, Ch1, Ch2, Ch3]) (hne : a ≠ b) :
    (∃ sa sb, Channel.String a = .ok sa ∧ Channel.String b = .ok sb ∧ sa ≠ sb) ∧
    mapIndex chStrMap a ≠ mapIndex chStrMap b := by
  have key : ∀ x ∈ [ChCur, Ch1, Ch2, Ch3], ∀ y ∈ [ChCur, Ch1, Ch2, Ch3], x ≠ y →
      (Channel.String x ≠ Channel.String y ∧
        (Channel.String x = .ok "ChC".toList ∨ Channel.String x = .ok "Ch1".toList ∨
          Channel.String x = .ok "Ch2".toList ∨ Channel.String x = .ok "Ch3".toList)) ∧
      mapIndex chStrMap x ≠ mapIndex chStrMap y := by
    decide
  obtain ⟨⟨hdiff, hxa⟩, hmap⟩ := key a ha b hb hne
  obtain ⟨⟨_, hxb⟩, _⟩ := key b hb a ha (Ne.symm hne)
  refine ⟨?_, hmap⟩
  have hsa : ∃ sa, Channel.String a = .ok sa := by
    rcases hxa with h | h | h | h <;> exact ⟨_, h⟩
  have hsb : ∃ sb, Channel.String b = .ok sb := by
    rcases hxb with h | h | h | h <;> exact ⟨_, h⟩
  obtain ⟨sa, hsa⟩ := hsa
  obtain ⟨sb, hsb⟩ := hsb
  refine ⟨sa, sb, hsa, hsb, ?_⟩
  intro e
  apply hdiff
  rw [hsa, hsb, e]

/-- C15 on the aggregate channel and the first channel. -/
theorem tokens_pairwise_distinct_witness :
    (∃ sa sb, Channel.String ChCur = .ok sa ∧ Channel.String Ch1 = .ok sb ∧ sa ≠ sb) ∧
    mapIndex chStrMap ChCur ≠ mapIndex chStrMap Ch1 :=
  tokens_pairwise_distinct ChCur Ch1 (by decide) (by decide) (by decide)

/-! ## A reply that ends with a bare line feed -/

/-- C16: for every non-empty payload `p` without a line feed, a reply of `p`
followed by a single line feed makes `command` return `p` without its last
byte, and no error. -/
theorem command_bare_line_feed_truncates (d : DP832) (conn : Conn) (cmd p : GoString)
    (hconn : d.conn = some conn)
    (hw : (conn.peer.headD Exchange.closed).writeErr = none)
    (hin : (conn.peer.headD Exchange.closed).incoming = p ++ ['\n'])
    (hp : p ≠ []) (hnl : '\n' ∉ p) :
    (d.command cmd).1 = .returned p.dropLast none ∧ p.dropLast.length + 1 = p.length := by
  have hpos : 0 < p.length := List.length_pos.mpr hp
  have hr : bufio.ReadString (conn.peer.headD Exchange.closed).incoming
      (conn.peer.headD Exchange.closed).readErr '\n' = (p ++ ['\n'], none) := by
    rw [hin]
    unfold bufio.ReadString
    rw [upTo_append '\n' p [] hnl]
  refine ⟨?_, by simp; omega⟩
  rw [command_line d conn cmd _ hconn hw hr]
  have hlen : ¬ (p ++ ['\n']).length < 2 := by simp; omega
  rw [if_neg hlen]
  congr 1
  rw [List.dropLast_eq_take]
  have : (p ++ ['\n']).length - 2 = p.length - 1 := by simp
  rw [this]
  exact List.take_append_of_le_length (by omega)

/-- C16, the example of the claim: the reply `OK` and a bare line feed
yields `O`. -/
theorem command_bare_line_feed_truncates_witness :
    ((connected ["OK\n".toList]).command "*IDN?".toList).1 = .returned "O".toList none ∧
    ("O".toList).length + 1 = ("OK".toList).length :=
  command_bare_line_feed_truncates (connected ["OK\n".toList])
    { wrote := [], peer := [answer "OK\n".toList] } "*IDN?".toList "OK".toList
    rfl (by decide) (by decide) (by decide) (by decide)

/-! ## The bounds of the two-byte truncation -/

/-- C17: a line that the read returns without error is a run of bytes
without line feed followed by a line feed; the truncation
`result[:len(result)-2]` is within bounds, and `command` returns a payload,
exactly when the line has at least two bytes.  Otherwise the line is the
one-byte line `\n`, the slice bound is `-1`, and `command` panics: it returns
neither a payload nor an error value. -/
theorem command_slice_in_bounds_iff (d : DP832) (conn : Conn) (cmd r : GoString)
    (hconn : d.conn = some conn)
    (hw : (conn.peer.headD Exchange.closed).writeErr = none)
    (hr : bufio.ReadString (conn.peer.headD Exchange.closed).incoming
            (conn.peer.headD Exchange.closed).readErr '\n' = (r, none)) :
    (∃ p, r = p ++ ['\n'] ∧ '\n' ∉ p) ∧
    (0 ≤ (r.length : Int) - 2 ↔ 2 ≤ r.length) ∧
    ((∃ payload, (d.command cmd).1 = .returned payload none) ↔ 2 ≤ r.length) ∧
    (r.length < 2 →
      r = ['\n'] ∧ (d.command cmd).1 = .panicked (.sliceBounds (-1)) ∧
      ∀ payload err, (d.command cmd).1 ≠ .returned payload err) := by
  have hline : ∃ p, r = p ++ ['\n'] ∧ '\n' ∉ p := by
    unfold bufio.ReadString at hr
    cases hup : bufio.upTo '\n' (conn.peer.headD Exchange.closed).incoming with
    | none => rw [hup] at hr; cases hr
    | some line =>
      rw [hup] at hr
      cases hr
      exact upTo_spec '\n' _ _ hup
  have hres := command_line d conn cmd r hconn hw hr
  refine ⟨hline, by omega, ?_, ?_⟩
  · constructor
    · rintro ⟨payload, hpay⟩
      by_contra hlt
      rw [hres, if_pos (by omega)] at hpay
      cases hpay
    · intro hge
      rw [hres, if_neg (by omega)]
      exact ⟨_, rfl⟩
  · intro hlt
    obtain ⟨p, hp, _⟩ := hline
    have hpnil : p = [] := by
      apply List.eq_nil_of_length_eq_zero
      rw [hp] at hlt
      simp at hlt
      omega
    subst hpnil
    simp only [List.nil_append] at hp
    subst hp
    have hpanic : (d.command cmd).1 = .panicked (.sliceBounds (-1)) := by
      rw [hres]
      rfl
    refine ⟨rfl, hpanic, ?_⟩
    intro payload err h
    rw [hpanic] at h
    cases h

/-- C17 on the one-byte line: the slice bound is `-1` and `command` panics. -/
theorem command_slice_in_bounds_iff_witness :
    "\n".toList = ['\n'] ∧
    ((connected ["\n".toList]).command "MEAS:ALL? CH1".toList).1 =
      .panicked (.sliceBounds (-1)) ∧
    ∀ payload err, ((connected ["\n".toList]).command "MEAS:ALL? CH1".toList).1 ≠
      .returned payload err :=
  (command_slice_in_bounds_iff (connected ["\n".toList])
    { wrote := [], peer := [answer "\n".toList] } "MEAS:ALL? CH1".toList "\n".toList
    rfl (by decide) (by decide)).2.2.2 (by decide)

/-! ## A channel value outside the enumeration -/

/-- C18: for every `Channel` value outside the enumeration the token lookup
yields the empty string, so `Measure` sends the aggregate query `MEAS:ALL? `
and, on a reply whose first three fields are numeric, returns a measurement
labelled with that out-of-domain value. -/
theorem Measure_out_of_domain_channel {F : Type} [Zero F] (conv : GoString → Except NumErr F)
    (d : DP832) (ch : Channel) (hch : ch ∉ [ChCur, Ch1, Ch2, Ch3]) :
    mapIndex chStrMap ch = [] ∧
    DP832.Measure.cmd ch = "MEAS:ALL? ".toList ∧
    DP832.Measure.cmd ch = DP832.Measure.cmd ChCur ∧
    (∀ conn, d.conn = some conn →
      (d.Measure conv ch).2.conn =
        some { wrote := conn.wrote ++ ["MEAS:ALL? \n".toList], peer := conn.peer.tail }) ∧
    (∀ d' s f0 f1 f2 more v0 v1 v2,
      d.command (DP832.Measure.cmd ch) = (.returned s none, d') →
      strings.Split s ',' = f0 :: f1 :: f2 :: more →
      strconv.ParseFloat conv f0 = .ok v0 →
      strconv.ParseFloat conv f1 = .ok v1 →
      strconv.ParseFloat conv f2 = .ok v2 →
      d.Measure conv ch =
        (.returned { Channel := ch, Voltage := v1, Current := v0, Power := v2 } none, d')) := by
  simp only [List.mem_cons, List.mem_singleton, List.not_mem_nil, or_false, not_or] at hch
  obtain ⟨h0, h1, h2, h3⟩ := hch
  have htok : mapIndex chStrMap ch = [] := by
    have e0 : (ch == ChCur) = false := by simpa using h0
    have e1 : (ch == Ch1) = false := by simpa using h1
    have e2 : (ch == Ch2) = false := by simpa using h2
    have e3 : (ch == Ch3) = false := by simpa using h3
    simp only [mapIndex, chStrMap, List.lookup, e0, e1, e2, e3, Option.getD_none]
  have hcmd : DP832.Measure.cmd ch = "MEAS:ALL? ".toList := by
    simp [DP832.Measure.cmd, htok]
  refine ⟨htok, hcmd, by rw [hcmd]; decide, ?_, ?_⟩
  · intro conn hconn
    rw [Measure_state, command_state d conn _ hconn, hcmd,
      Sprintf0_of_no_percent _ (by decide)]
    rfl
  · intro d' s f0 f1 f2 more v0 v1 v2 hc hsplit hv0 hv1 hv2
    unfold DP832.Measure
    simp [hc, hsplit, hv0, hv1, hv2, Measurement.zero]

/-- C18, the example of the claim: `Channel(7)` sends the aggregate query
and the measurement returned carries the channel value 7. -/
theorem Measure_out_of_domain_channel_witness :
    (connected ["0.5,12.0,6.0\r\n".toList]).Measure strconv.decimal 7 =
      (.returned
        { Channel := 7,
          Voltage := { neg := false, digits := 120, scale := 1 },
          Current := { neg := false, digits := 5, scale := 1 },
          Power := { neg := false, digits := 60, scale := 1 } } none,
       { conn := some { wrote := ["MEAS:ALL? \n".toList], peer := [] },
         Addr := "192.168.0.200:5555".toList }) :=
  (Measure_out_of_domain_channel strconv.decimal (connected ["0.5,12.0,6.0\r\n".toList]) 7
    (by decide)).2.2.2.2
    { conn := some { wrote := ["MEAS:ALL? \n".toList], peer := [] },
      Addr := "192.168.0.200:5555".toList }
    "0.5,12.0,6.0".toList "0.5".toList "12.0".toList "6.0".toList []
    { neg := false, digits := 5, scale := 1 }
    { neg := false, digits := 120, scale := 1 }
    { neg := false, digits := 60, scale := 1 }
    (by decide) (by decide) (by decide) (by decide) (by decide)

/-! ## The measurement returned with a parse error -/

/-- C19: when `Measure` returns the parse error of field 1, 2 or 3, the
measurement returned with it holds the values decoded from the fields before
that one (`Current` after field 1, `Voltage` after field 2), zero in the
other numeric fields, and the zero channel `ChCur`, not the channel that was
queried. -/
theorem Measure_partial_on_parse_error {F : Type} [Zero F] (conv : GoString → Except NumErr F)
    (d d' : DP832) (ch : Channel) (s : GoString)
    (hcmd : d.command (DP832.Measure.cmd ch) = (.returned s none, d')) :
    (∀ f0 rest e, strings.Split s ',' = f0 :: rest →
      strconv.ParseFloat conv f0 = .error e →
      d.Measure conv ch =
        (.returned { Channel := ChCur, Voltage := 0, Current := 0, Power := 0 } (some e), d')) ∧
    (∀ f0 f1 rest v0 e, strings.Split s ',' = f0 :: f1 :: rest →
      strconv.ParseFloat conv f0 = .ok v0 →
      strconv.ParseFloat conv f1 = .error e →
      d.Measure conv ch =
        (.returned { Channel := ChCur, Voltage := 0, Current := v0, Power := 0 } (some e), d')) ∧
    (∀ f0 f1 f2 rest v0 v1 e, strings.Split s ',' = f0 :: f1 :: f2 :: rest →
      strconv.ParseFloat conv f0 = .ok v0 →
      strconv.ParseFloat conv f1 = .ok v1 →
      strconv.ParseFloat conv f2 = .error e →
      d.Measure conv ch =
        (.returned { Channel := ChCur, Voltage := v1, Current := v0, Power := 0 } (some e), d')) := by
  refine ⟨?_, ?_, ?_⟩
  · intro f0 rest e hsplit h0
    unfold DP832.Measure
    simp [hcmd, hsplit, h0, Measurement.zero, ChCur]
  · intro f0 f1 rest v0 e hsplit h0 h1
    unfold DP832.Measure
    simp [hcmd, hsplit, h0, h1, Measurement.zero, ChCur]
  · intro f0 f1 f2 rest v0 v1 e hsplit h0 h1 h2
    unfold DP832.Measure
    simp [hcmd, hsplit, h0, h1, h2, Measurement.zero, ChCur]

/-- C19 on the payload `1.5,2.5,watts` for `Ch1`: the error of the third
field comes with current 1.5, voltage 2.5, power zero and channel `ChCur`. -/
theorem Measure_partial_on_parse_error_witness :
    (connected ["1.5,2.5,watts\r\n".toList]).Measure strconv.decimal Ch1 =
      (.returned
        { Channel := ChCur,
          Voltage := { neg := false, digits := 25, scale := 1 },
          Current := { neg := false, digits := 15, scale := 1 },
          Power := 0 }
        (some (.num { Func := "ParseFloat".toList, Num := "watts".toList, Err := .badSyntax })),
       { conn := some { wrote := ["MEAS:ALL? CH1\n".toList], peer := [] },
         Addr := "192.168.0.200:5555".toList }) :=
  (Measure_partial_on_parse_error strconv.decimal (connected ["1.5,2.5,watts\r\n".toList])
    { conn := some { wrote := ["MEAS:ALL? CH1\n".toList], peer := [] },
      Addr := "192.168.0.200:5555".toList }
    Ch1 "1.5,2.5,watts".toList (by decide)).2.2
    "1.5".toList "2.5".toList "watts".toList []
    { neg := false, digits := 15, scale := 1 }
    { neg := false, digits := 25, scale := 1 }
    (.num { Func := "ParseFloat".toList, Num := "watts".toList, Err := .badSyntax })
    (by decide) (by decide) (by decide) (by decide)

end Rigol
